import Mathlib

/-!
Verification of the BlobStorageArea slot-chunking storage engine.

Shallow embedding of `src/BlobStorageArea.ts` (the `BlobStorageArea` class),
its error classes and enums, together with proofs about the engine's
behaviour.

Modelling conventions:

* Blob contents and serialized documents are `List Char`; all sizes in the
  claims are over ASCII data, where JS byte sizes and character counts agree.
* The backend (`chrome.storage.StorageArea` / `DummyStorageArea`) is an
  external collaborator; it is modelled as a partial map from keys to
  values with the contract of section 6 of the specification (`set` merges
  keys, `remove` deletes a key, absent keys read as `undefined`).
* Backend keys are modelled structurally by `BKey`.  The engine's reserved
  string keys `"__storage_meta"` and `"__storage_stack_" + i` (decimal
  rendering of `i`) are pairwise distinct and distinct from any caller key,
  so the string keyspace is isomorphic to `BKey` with caller keys mapped to
  `BKey.userKey`.
* The hash (`createHash("md5")`) and the compression codec
  (`zlib.deflate`/`unzip` plus base64) are external black-box primitives;
  they are parameters (`Codec`) of the embedding.
* `Date.now()` is an explicit `now : Nat` argument of `set`.
* Asynchronous code is sequentialized: one engine instance runs one
  operation at a time (specification section 5), so each operation is a
  state transformer on the engine and the backend.  The successive
  assignments to the `state` field made by an operation are recorded in a
  `trace` list so that the transitional `Uploading`/`Downloading` states
  remain observable.
-/

deriving instance DecidableEq for Except

namespace BlobStorage

/-- `LastCompressStates` from `src/enums.ts` (source spelling kept). -/
inductive LastCompressStates
  | Uncomporessed
  | Compressed
  | Failed
deriving DecidableEq, Repr

/-- `StorageStates` from `src/enums.ts`. -/
inductive StorageStates
  | Idle
  | Uploading
  | Downloading
deriving DecidableEq, Repr

/-- `MetaValues` from `src/types.ts`; `null` fields are `none`. -/
structure MetaValues where
  hash : Option String
  hashPreCompress : Option String
  lastUpdated : Option Nat
  lastCompressState : LastCompressStates
deriving DecidableEq, Repr

/-- The initial metadata written by the `BlobStorageArea` constructor. -/
def initMeta : MetaValues :=
  { hash := none
    hashPreCompress := none
    lastUpdated := none
    lastCompressState := .Uncomporessed }

/-- Backend keys.  `metaKey` stands for the string `"__storage_meta"`,
`slotKey i` for `"__storage_stack_" + i` (the `keyPrefix` field plus the
decimal rendering of `i`), and `userKey s` for any other caller-owned
string key.  The real string encoding is injective, so this structural
keyspace is faithful. -/
inductive BKey
  | metaKey
  | slotKey (i : Nat)
  | userKey (s : String)
deriving DecidableEq, Repr

/-- Backend values: the engine stores strings at slot keys and the
`MetaValues` record at the metadata key; caller data at unrelated keys is
modelled by the same type. -/
inductive BVal
  | str (s : List Char)
  | meta (m : MetaValues)
deriving DecidableEq, Repr

/-- The backing key-value store (external collaborator, section 6 of the
specification): a partial map from keys to values. -/
abbrev Backend := BKey → Option BVal

/-- Backend `set` of a single key (the backend's `set` merges the given
keys into the store and never clears unrelated keys). -/
def bset (b : Backend) (k : BKey) (v : BVal) : Backend :=
  fun q => if q = k then some v else b q

/-- Backend `remove` of a single key. -/
def bremove (b : Backend) (k : BKey) : Backend :=
  fun q => if q = k then none else b q

/-- A backend holding no entries at all. -/
def emptyBackend : Backend := fun _ => none

/-- A JS-object document: string keys to string values, in property order.
The claims only exercise string-valued documents. -/
abbrev Doc := List (String × String)

/-- JS property assignment `obj[k] = v`: overwrite in place if the key is
present (keeping its position), otherwise append.  This is the semantics
of both object spread for a repeated key and `Map.prototype.set`. -/
def objUpd {α : Type} (d : List (String × α)) (k : String) (v : α) :
    List (String × α) :=
  if d.any (fun kv => kv.1 = k) then
    d.map (fun kv => if kv.1 = k then (k, v) else kv)
  else d ++ [(k, v)]

/-- JS object spread `{ ...a, ...b }`: assign every property of `b` over a
copy of `a`, later keys winning. -/
def jsMerge (a b : Doc) : Doc :=
  b.foldl (fun acc kv => objUpd acc kv.1 kv.2) a

/-- JSON rendering of a string (no escaping: the claims' keys and values
contain no quote, backslash or control characters). -/
def quoteStr (s : String) : List Char :=
  '"' :: (s.data ++ ['"'])

/-- One `"key":"value"` member of a JSON object. -/
def entryChars (kv : String × String) : List Char :=
  quoteStr kv.1 ++ ':' :: quoteStr kv.2

/-- `JSON.stringify` of a string-valued document. -/
def stringifyDoc (d : Doc) : List Char :=
  '\x7b' :: (List.intercalate [','] (d.map entryChars) ++ ['\x7d'])

/-- Scan the remainder of a JSON string literal up to its closing quote. -/
def parseQuotedAux : List Char → List Char → Option (String × List Char)
  | [], _ => none
  | c :: rest, acc =>
    if c = '"' then some (String.mk acc.reverse, rest)
    else parseQuotedAux rest (c :: acc)

/-- Parse a JSON string literal. -/
def parseQuoted : List Char → Option (String × List Char)
  | c :: rest => if c = '"' then parseQuotedAux rest [] else none
  | [] => none

/-- Parse the members of a flat JSON object after the opening brace. -/
def parseEntries : Nat → List Char → Doc → Option Doc
  | 0, _, _ => none
  | fuel + 1, cs, acc =>
    match parseQuoted cs with
    | none => none
    | some (k, rest) =>
      match rest with
      | ':' :: rest2 =>
        match parseQuoted rest2 with
        | none => none
        | some (v, rest3) =>
          match rest3 with
          | [] => none
          | c :: rest4 =>
            if c = ',' then parseEntries fuel rest4 (acc ++ [(k, v)])
            else if c = '\x7d' then
              (if rest4 = [] then some (acc ++ [(k, v)]) else none)
            else none
      | _ => none

/-- `JSON.parse` restricted to flat string-valued objects; any other input
(including the empty string) fails, as `JSON.parse` throws. -/
def parseDoc (cs : List Char) : Option Doc :=
  match cs with
  | '\x7b' :: rest =>
    if rest = ['\x7d'] then some [] else parseEntries cs.length rest []
  | _ => none

/-- The external hashing and compression primitives (`createHash("md5")`,
`deflate` + base64, base64 + `unzip`), black boxes per the specification. -/
structure Codec where
  hashFn : List Char → String
  compressFn : List Char → List Char
  decompressFn : List Char → List Char

/-- The configuration fields of `BlobStorageConfigInterface` that the core
algorithm reads. -/
structure Config where
  slotCount : Nat
  slotSize : Nat
  compress : Bool

/-- The mutable fields of a `BlobStorageArea` instance (its `config`, the
in-memory metadata mirror `meta`, the `localData` cache, the
`occupiedStorage` counter and the `state` field), plus the injected codec
primitives. -/
structure Engine where
  config : Config
  codec : Codec
  meta : MetaValues
  localData : Doc
  occupiedStorage : Nat
  state : StorageStates

/-- `getMaxCapacity()`: `slotCount * slotSize`. -/
def getMaxCapacity (cfg : Config) : Nat := cfg.slotCount * cfg.slotSize

/-- `getBlob(index)` as text: read the slot's entry, `undefined` becoming
the empty string (`value ?? ""`).  A non-string value at a slot key (never
produced by the engine) goes through Blob part stringification. -/
def slotRead (b : Backend) (i : Nat) : List Char :=
  match b (.slotKey i) with
  | some (.str s) => s
  | some (.meta _) => ("[object Object]").data
  | none => []

/-- `connectedBlobs()`: concatenate slots `0 .. slotCount-1` in order. -/
def connectedBlobs (cfg : Config) (b : Backend) : List Char :=
  ((List.range cfg.slotCount).map (slotRead b)).flatten

/-- The slot-removal loop of `clear()`: remove the reserved slot keys
`0 .. slotCount-1` (and only those; the backend's own `clear()` is never
called). -/
def clearSlots (cfg : Config) (b : Backend) : Backend :=
  (List.range cfg.slotCount).foldl (fun acc i => bremove acc (.slotKey i)) b

/-- `clear()`: remove all slots, reset `occupiedStorage`, empty the local
cache.  Metadata is not touched. -/
def clear (e : Engine) (b : Backend) : Engine × Backend :=
  ({ e with occupiedStorage := 0, localData := [] }, clearSlots e.config b)

/-- `setMeta(meta)`: replace the in-memory mirror and push the whole
record to the backend under the metadata key. -/
def setMeta (e : Engine) (b : Backend) (m : MetaValues) : Engine × Backend :=
  ({ e with meta := m }, bset b .metaKey (.meta m))

/-- `setHash(hash)`. -/
def setHash (e : Engine) (b : Backend) (h : Option String) : Engine × Backend :=
  setMeta e b { e.meta with hash := h }

/-- `setPreCompressHash(hash)`. -/
def setPreCompressHash (e : Engine) (b : Backend) (h : Option String) :
    Engine × Backend :=
  setMeta e b { e.meta with hashPreCompress := h }

/-- `setLastCompress(state)`. -/
def setLastCompress (e : Engine) (b : Backend) (s : LastCompressStates) :
    Engine × Backend :=
  setMeta e b { e.meta with lastCompressState := s }

/-- `setLastUpdated()`: the source defaults the argument to `Date.now()`;
time is passed explicitly here. -/
def setLastUpdated (e : Engine) (b : Backend) (now : Nat) : Engine × Backend :=
  setMeta e b { e.meta with lastUpdated := some now }

/-- JS runtime errors surfaced by `get`/`isUpToDate`. -/
inductive JsErr
  | typeError
  | parseError
deriving DecidableEq, Repr

/-- `isUpToDate()`: compare the live metadata's `lastUpdated` with the
cached one under strict equality.  When no metadata record exists, reading
`.lastUpdated` of `undefined` throws a `TypeError`; when the reserved key
holds a plain string, `.lastUpdated` is `undefined` and the strict
comparison with a number-or-null is `false`. -/
def isUpToDate (e : Engine) (b : Backend) : Except JsErr Bool :=
  match b .metaKey with
  | some (.meta m) => .ok (decide (m.lastUpdated = e.meta.lastUpdated))
  | some (.str _) => .ok false
  | none => .error .typeError

/-- `create(config)`: run the constructor (default metadata), then
`initStorageMeta()` (adopt the stored record, or persist the defaults when
nothing usable is stored), then pre-compute `occupiedStorage` from the
live slots. -/
def create (cfg : Config) (codec : Codec) (b : Backend) : Engine × Backend :=
  let e : Engine :=
    { config := cfg
      codec := codec
      meta := initMeta
      localData := []
      occupiedStorage := 0
      state := .Idle }
  let step :=
    match b .metaKey with
    | some (.meta m) => ({ e with meta := m }, b)
    | _ => setMeta e b initMeta
  ({ step.1 with occupiedStorage := (connectedBlobs cfg step.2).length }, step.2)

/-- `getCurrentUsed(live)`: live recomputation measures the concatenated
slot contents, otherwise the cached counter is returned. -/
def getCurrentUsed (e : Engine) (b : Backend) (live : Bool) : Nat :=
  if live then (connectedBlobs e.config b).length else e.occupiedStorage

/-- `getHash()`. -/
def getHash (e : Engine) : Option String := e.meta.hash

/-- `getPreCompressHash()`. -/
def getPreCompressHash (e : Engine) : Option String := e.meta.hashPreCompress

/-- `getLastUpdated()`. -/
def getLastUpdated (e : Engine) : Option Nat := e.meta.lastUpdated

/-- `getLastCompressState()`. -/
def getLastCompressState (e : Engine) : LastCompressStates :=
  e.meta.lastCompressState

/-- `getState()`. -/
def getState (e : Engine) : StorageStates := e.state

/-- The argument of `get`: omitted/`null`, a string, an array of strings,
or some other object (whose `keys` property, when it is an array of
strings, is modelled by `keysField`). -/
inductive GetArg
  | noArg
  | strArg (s : String)
  | arrArg (l : List String)
  | objArg (keysField : Option (List String))
deriving DecidableEq, Repr

/-- What `argKeysToArray` actually evaluates to: a genuine array of
strings, the `Array.prototype.keys` method (for an array argument, since
`typeof array = "object"` and `keys?.keys` picks up the method), or
`undefined` (for an object without a `keys` property). -/
inductive KeysVal
  | list (ks : List String)
  | jsFun
  | jsUndefined
deriving DecidableEq, Repr

/-- `argKeysToArray(keys)` from the source: `undefined`/`null` yield the
local cache's keys; a string is wrapped in a singleton; any other object
(arrays included) is sent through the `typeof keys === "object"` branch,
which returns `keys?.keys`. -/
def argKeysToArray (e : Engine) : GetArg → KeysVal
  | .noArg => .list (e.localData.map Prod.fst)
  | .strArg s => .list [s]
  | .arrArg _ => .jsFun
  | .objArg (some ks) => .list ks
  | .objArg none => .jsUndefined

/-- The result object of `get`: keys in iteration order, each mapped to
its value or to `undefined` (`none`). -/
abbrev Got := List (String × Option String)

/-- The `for (const key of keys) values[key] = lookup(key)` loop of `get`:
iterating a non-array (`Array.prototype.keys` or `undefined`) throws a
`TypeError`. -/
def buildValues (ks : KeysVal) (lookup : String → Option String) :
    Except JsErr Got :=
  match ks with
  | .list l => .ok (l.foldl (fun acc k => objUpd acc k (lookup k)) [])
  | _ => .error .typeError

/-- `getAsBlob()`: concatenate the slots and decompress when the cached
`lastCompressState` is `Compressed`. -/
def getAsBlob (e : Engine) (b : Backend) : List Char :=
  let data := connectedBlobs e.config b
  if e.meta.lastCompressState = .Compressed then e.codec.decompressFn data
  else data

/-- The outcome of `get`: result or error, final engine, final backend,
and the successive assignments to the `state` field. -/
structure GetResult where
  res : Except JsErr Got
  engine : Engine
  backend : Backend
  trace : List StorageStates

/-- `get(items?)` from the source: enter `Downloading`, resolve the key
list, answer from the local cache when up to date, otherwise reassemble,
decompress if needed and parse the stored document; restore `Idle` on
completion or error. -/
def get (e : Engine) (b : Backend) (arg : GetArg) : GetResult :=
  let e1 := { e with state := StorageStates.Downloading }
  let ks := argKeysToArray e1 arg
  let res : Except JsErr Got :=
    match isUpToDate e1 b with
    | .error er => .error er
    | .ok true => buildValues ks (fun k => e1.localData.lookup k)
    | .ok false =>
      match parseDoc (getAsBlob e1 b) with
      | none => .error .parseError
      | some json => buildValues ks (fun k => json.lookup k)
  { res := res
    engine := { e1 with state := .Idle }
    backend := b
    trace := [.Downloading, .Idle] }

/-- `TooLargeDataError` (src/errors/TooLargeDataError.ts): carries the
byte overage. -/
inductive SetErr
  | tooLarge (over : Nat)
deriving DecidableEq, Repr

/-- The outcome of `set`. -/
structure SetResult where
  res : Except SetErr Unit
  engine : Engine
  backend : Backend
  trace : List StorageStates

/-- Spreading a Blob object (`{ ...oldData }` in the source's `set`):
a Blob has no string-keyed enumerable own properties, so the spread
contributes no document entries whatsoever — the previous document is
never parsed. -/
def blobSpread (_data : List Char) : Doc := []

/-- The slot-write loop of `set`: for each index, `end = min((index+1) *
slotSize, data.size)`, persist the slice `[index*slotSize, end)` at the
slot key, accumulate `occupiedStorage`, and break as soon as
`end = data.size`.  `fuel` is the number of remaining loop iterations
(initially `slotCount`). -/
def writeLoop (slotSize : Nat) (data : List Char) :
    Nat → Nat → Backend → Nat → Backend × Nat
  | 0, _, b, occ => (b, occ)
  | fuel + 1, index, b, occ =>
    let e := min ((index + 1) * slotSize) data.length
    let part := (data.drop (index * slotSize)).take (e - index * slotSize)
    let b2 := bset b (.slotKey index) (.str part)
    let occ2 := occ + part.length
    if e = data.length then (b2, occ2)
    else writeLoop slotSize data fuel (index + 1) b2 occ2

/-- `set(items)` from the source, step by step:
enter `Uploading`; read `connectedBlobs` and build
`newJson = { ...oldData, ...items }` (`oldData` is a Blob, so its spread
contributes nothing); serialize; hash the pre-compression bytes; compress
when configured (the source's `compress()` persists
`lastCompressState = Compressed` on success, before any capacity check);
check `over = data.size - maxCapacity` and throw `TooLargeDataError(over)`
when positive (restoring `Idle` both at the throw site and in the `catch`);
otherwise `clear()`, blank the stored hash, run the slot-write loop,
persist the pre-compression hash (or blank it and mark `Uncomporessed`),
re-read the slots, hash and persist, stamp `lastUpdated`, copy `items`
into the local cache and restore `Idle`. -/
def set (e : Engine) (b : Backend) (items : Doc) (now : Nat) : SetResult :=
  let e1 := { e with state := StorageStates.Uploading }
  let oldData := connectedBlobs e1.config b
  let newJson := jsMerge (blobSpread oldData) items
  let precompressedData := stringifyDoc newJson
  let preCompressHash := e1.codec.hashFn precompressedData
  let step :=
    if e1.config.compress then
      let s1 := setLastCompress e1 b .Compressed
      (s1.1, s1.2, e1.codec.compressFn precompressedData)
    else (e1, b, precompressedData)
  let e2 := step.1
  let b2 := step.2.1
  let data := step.2.2
  if data.length > getMaxCapacity e2.config then
    { res := .error (.tooLarge (data.length - getMaxCapacity e2.config))
      engine := { e2 with state := .Idle }
      backend := b2
      trace := [.Uploading, .Idle, .Idle] }
  else
    let c := clear e2 b2
    let s4 := setHash c.1 c.2 none
    let wl := writeLoop s4.1.config.slotSize data s4.1.config.slotCount 0 s4.2
      s4.1.occupiedStorage
    let e5 : Engine := { s4.1 with occupiedStorage := wl.2 }
    let s6 :=
      if e5.config.compress then setPreCompressHash e5 wl.1 (some preCompressHash)
      else
        let sa := setPreCompressHash e5 wl.1 none
        setLastCompress sa.1 sa.2 .Uncomporessed
    let blobTxt := connectedBlobs s6.1.config s6.2
    let hash := s6.1.codec.hashFn blobTxt
    let s7 := setHash s6.1 s6.2 (some hash)
    let s8 := setLastUpdated s7.1 s7.2 now
    let e9 : Engine := { s8.1 with localData := jsMerge s8.1.localData items }
    { res := .ok ()
      engine := { e9 with state := .Idle }
      backend := s8.2
      trace := [.Uploading, .Idle] }

/-- The serialization that `set` actually produces: the merge starts from
the (empty) spread of the previous blob, so it is the serialization of
`items` alone (deduplicated as a JS object literal). -/
def serializedPayload (items : Doc) : List Char :=
  stringifyDoc (jsMerge [] items)

/-- The final payload `set` measures against the capacity: the serialized
document, compressed when compression is enabled. -/
def finalPayload (e : Engine) (items : Doc) : List Char :=
  if e.config.compress then e.codec.compressFn (serializedPayload items)
  else serializedPayload items

/-- Modelled from the spec (section 4.4, step 2 of `set`, and claim C1's
wording): the document that *should* be stored by `set` — the previous
reconstructible document with `items` merged over it, new keys winning on
conflict.  Used to compare the specified merge with the code's behaviour. -/
def specMergedDocument (oldDoc items : Doc) : Doc :=
  jsMerge oldDoc items

/-! ## Concrete fixtures for closed scenario theorems

`mdlCodec` instantiates the black-box codec with a constant hash and the
identity compression; any functions can play this role in scenarios whose
conclusions do not depend on the digest values. -/

def mdlCodec : Codec :=
  { hashFn := fun _ => "h", compressFn := id, decompressFn := id }

/-- The test suite's `slotSize: 4, slotCount: 4` configuration. -/
def cfg44 : Config := { slotCount := 4, slotSize := 4, compress := false }

/-- The test suite's `slotSize: 16, slotCount: 16` configuration. -/
def cfgShare : Config := { slotCount := 16, slotSize := 16, compress := false }

/-- The test suite's `slotSize: 16, slotCount: 4` shared-backend
configuration. -/
def c6Cfg : Config := { slotCount := 4, slotSize := 16, compress := false }

/-- A one-byte-capacity configuration with compression enabled. -/
def c2Cfg : Config := { slotCount := 1, slotSize := 1, compress := true }

/-- A tiny two-slot configuration. -/
def c3Cfg : Config := { slotCount := 2, slotSize := 3, compress := false }

/-- A two-slot configuration with compression enabled. -/
def c5Cfg : Config := { slotCount := 2, slotSize := 16, compress := true }

/-- Scenario: a fresh engine stores `{a:"1"}`, then stores `{b:"2"}`. -/
def c1World := create cfgShare mdlCodec emptyBackend
def c1SetA := set c1World.1 c1World.2 [("a", "1")] 1
def c1SetB := set c1SetA.engine c1SetA.backend [("b", "2")] 2

/-- Scenario: a fresh compressing engine with capacity 1 is asked to store
a document serializing to 16 bytes. -/
def c2World := create c2Cfg mdlCodec emptyBackend
def c2Fail := set c2World.1 c2World.2 [("key", "ABCDEF")] 1

/-- Scenario: a fresh capacity-16 engine stores `{key:"ABCDEF"}` (exactly
16 bytes), then stores `{a:"x"}`, then is asked for `{key:"ABCDEFG"}`. -/
def c4World := create cfg44 mdlCodec emptyBackend
def c4SetA := set c4World.1 c4World.2 [("key", "ABCDEF")] 1
def c4SetB := set c4SetA.engine c4SetA.backend [("a", "x")] 2
def c4SetC := set c4SetA.engine c4SetA.backend [("key", "ABCDEFG")] 2

/-- Scenario: two engine instances sharing one backend; instance A then
writes at time 7. -/
def c6A := create c6Cfg mdlCodec emptyBackend
def c6B := create c6Cfg mdlCodec c6A.2
def c6Set := set c6A.1 c6B.2 [("key", "ABCDEF")] 7


/-! ## Lemmas about the backend primitives -/

theorem bset_self (b : Backend) (k : BKey) (v : BVal) : bset b k v k = some v := by
  simp [bset]

theorem bset_ne (b : Backend) (k q : BKey) (v : BVal) (h : q ≠ k) :
    bset b k v q = b q := by
  simp [bset, h]

theorem slotRead_bset_meta (b : Backend) (v : BVal) (i : Nat) :
    slotRead (bset b .metaKey v) i = slotRead b i := by
  simp [slotRead, bset]

theorem slotRead_bset_slot_self (b : Backend) (i : Nat) (s : List Char) :
    slotRead (bset b (.slotKey i) (.str s)) i = s := by
  simp [slotRead, bset]

theorem slotRead_bset_slot_ne (b : Backend) (i j : Nat) (v : BVal) (h : i ≠ j) :
    slotRead (bset b (.slotKey j) v) i = slotRead b i := by
  simp [slotRead, bset, h]

theorem connectedBlobs_bset_meta (cfg : Config) (b : Backend) (v : BVal) :
    connectedBlobs cfg (bset b .metaKey v) = connectedBlobs cfg b := by
  unfold connectedBlobs
  refine congrArg List.flatten (List.map_congr_left ?_)
  intro i _
  exact slotRead_bset_meta b v i

theorem foldl_bremove_apply (l : List Nat) (b : Backend) (k : BKey) :
    (l.foldl (fun acc i => bremove acc (.slotKey i)) b) k =
      if l.any (fun i => decide (k = BKey.slotKey i)) then none else b k := by
  induction l generalizing b with
  | nil => simp
  | cons i t ih =>
    simp only [List.foldl_cons, List.any_cons]
    rw [ih]
    by_cases hk : k = BKey.slotKey i
    · subst hk
      simp [bremove]
    · simp [bremove, hk]

theorem clearSlots_apply (cfg : Config) (b : Backend) (k : BKey) :
    clearSlots cfg b k =
      if (List.range cfg.slotCount).any (fun i => decide (k = BKey.slotKey i))
      then none else b k :=
  foldl_bremove_apply _ b k

theorem slotRead_congr (b1 b2 : Backend) (i : Nat)
    (h : b1 (.slotKey i) = b2 (.slotKey i)) : slotRead b1 i = slotRead b2 i := by
  unfold slotRead
  rw [h]

theorem clearSlots_slotRead (cfg : Config) (b : Backend) (i : Nat)
    (h : i < cfg.slotCount) : slotRead (clearSlots cfg b) i = [] := by
  have hc : (List.range cfg.slotCount).any
      (fun j => decide (BKey.slotKey i = BKey.slotKey j)) = true := by
    rw [List.any_eq_true]
    exact ⟨i, List.mem_range.mpr h, by simp⟩
  simp [slotRead, clearSlots_apply, hc, h]

theorem clearSlots_frame (cfg : Config) (b : Backend) (k : BKey)
    (h : ∀ i, i < cfg.slotCount → k ≠ .slotKey i) : clearSlots cfg b k = b k := by
  rw [clearSlots_apply]
  have hc : ¬ ((List.range cfg.slotCount).any
      (fun i => decide (k = BKey.slotKey i)) = true) := by
    rw [List.any_eq_true]
    rintro ⟨i, hi, hk⟩
    exact h i (List.mem_range.mp hi) (by simpa using hk)
  rw [if_neg hc]

/-! ## Lemmas about the slot-write loop -/

theorem writeLoop_frame (slotSize : Nat) (data : List Char) :
    ∀ (fuel index : Nat) (b : Backend) (occ : Nat) (k : BKey),
      (∀ j, index ≤ j → j < index + fuel → k ≠ .slotKey j) →
      (writeLoop slotSize data fuel index b occ).1 k = b k := by
  intro fuel
  induction fuel with
  | zero => intro index b occ k _; rfl
  | succ fuel ih =>
    intro index b occ k hk
    by_cases he : min ((index + 1) * slotSize) data.length = data.length
    · simp only [writeLoop, if_pos he]
      exact bset_ne _ _ _ _ (hk index le_rfl (by omega))
    · simp only [writeLoop, if_neg he]
      rw [ih (index + 1) _ _ k (fun j h1 h2 => hk j (by omega) (by omega))]
      exact bset_ne _ _ _ _ (hk index le_rfl (by omega))

theorem writeLoop_spec (slotSize : Nat) (data : List Char) :
    ∀ (fuel index : Nat) (b : Backend) (occ : Nat),
      data.length ≤ (index + fuel) * slotSize →
      index * slotSize ≤ data.length →
      (∀ j, index ≤ j → j < index + fuel → slotRead b j = []) →
      (((List.range' index fuel).map
          (slotRead (writeLoop slotSize data fuel index b occ).1)).flatten
        = data.drop (index * slotSize))
      ∧ (writeLoop slotSize data fuel index b occ).2
        = occ + (data.length - index * slotSize) := by
  intro fuel
  induction fuel with
  | zero =>
    intro index b occ h1 h2 _
    rw [Nat.add_zero] at h1
    have hlen : data.length = index * slotSize := le_antisymm h1 h2
    constructor
    · simp [writeLoop, List.range', List.drop_eq_nil_of_le (le_of_eq hlen)]
    · simp [writeLoop, hlen]
  | succ fuel ih =>
    intro index b occ h1 h2 hb
    have hmul : (index + 1) * slotSize = index * slotSize + slotSize := by ring
    have hmul2 : (index + (fuel + 1)) * slotSize = (index + 1 + fuel) * slotSize := by
      ring
    by_cases he : min ((index + 1) * slotSize) data.length = data.length
    · -- final chunk: the loop breaks after writing slot `index`
      have hle : data.length ≤ (index + 1) * slotSize :=
        he ▸ Nat.min_le_left ((index + 1) * slotSize) data.length
      have hpart :
          (data.drop (index * slotSize)).take
              (min ((index + 1) * slotSize) data.length - index * slotSize)
            = data.drop (index * slotSize) := by
        rw [he]
        exact List.take_of_length_le (by simp)
      have htail : ∀ (v : BVal), ∀ x ∈ (List.range' (index + 1) fuel).map
          (slotRead (bset b (.slotKey index) v)), x = [] := by
        intro v x hx
        rcases List.mem_map.mp hx with ⟨j, hj, rfl⟩
        have hj' := List.mem_range'_1.mp hj
        rw [slotRead_bset_slot_ne _ _ _ _ (by omega)]
        exact hb j (by omega) (by omega)
      simp only [writeLoop, if_pos he]
      constructor
      · rw [List.range'_succ, List.map_cons, List.flatten_cons,
          slotRead_bset_slot_self]
        rw [List.flatten_eq_nil_iff.mpr (htail _), List.append_nil]
        exact hpart
      · rw [hpart]
        simp
    · -- full chunk: the loop writes slot `index` and recurses
      have hlt : (index + 1) * slotSize < data.length := by
        rcases Nat.lt_or_ge ((index + 1) * slotSize) data.length with h | h
        · exact h
        · exact absurd (Nat.min_eq_right h) he
      have hmin : min ((index + 1) * slotSize) data.length = (index + 1) * slotSize :=
        Nat.min_eq_left (le_of_lt hlt)
      have hsub : (index + 1) * slotSize - index * slotSize = slotSize := by
        omega
      have hpartlen :
          ((data.drop (index * slotSize)).take
              (min ((index + 1) * slotSize) data.length - index * slotSize)).length
            = slotSize := by
        rw [hmin, hsub]
        simp
        omega
      have hrec := ih (index + 1)
        (bset b (.slotKey index)
          (.str ((data.drop (index * slotSize)).take
            (min ((index + 1) * slotSize) data.length - index * slotSize))))
        (occ + ((data.drop (index * slotSize)).take
            (min ((index + 1) * slotSize) data.length - index * slotSize)).length)
        (hmul2 ▸ h1) (le_of_lt hlt)
        (by
          intro j hj1 hj2
          rw [slotRead_bset_slot_ne _ _ _ _ (by omega)]
          exact hb j (by omega) (by omega))
      have hfr := writeLoop_frame slotSize data fuel (index + 1)
        (bset b (.slotKey index)
          (.str ((data.drop (index * slotSize)).take
            (min ((index + 1) * slotSize) data.length - index * slotSize))))
        (occ + ((data.drop (index * slotSize)).take
            (min ((index + 1) * slotSize) data.length - index * slotSize)).length)
        (BKey.slotKey index)
        (fun j hj1 hj2 hc => by
          have := BKey.slotKey.inj hc
          omega)
      simp only [writeLoop, if_neg he]
      constructor
      · rw [List.range'_succ, List.map_cons, List.flatten_cons]
        rw [slotRead_congr _ _ _ hfr, slotRead_bset_slot_self]
        rw [hrec.1]
        rw [hmin, hsub, hmul]
        exact List.drop_take_append_drop data (index * slotSize) slotSize
      · rw [hrec.2, hpartlen]
        omega

/-- **Round trip of the slot manager**: after clearing the reserved slots
and running the slot-write loop on a payload that fits the configured
capacity, reading slots `0 .. slotCount-1` in index order (absent slots
contributing the empty string) and concatenating yields exactly the
original payload. -/
theorem slots_roundTrip (cfg : Config) (b : Backend) (data : List Char)
    (h : data.length ≤ cfg.slotSize * cfg.slotCount) :
    connectedBlobs cfg
      ((writeLoop cfg.slotSize data cfg.slotCount 0 (clearSlots cfg b) 0).1)
      = data := by
  have hs := writeLoop_spec cfg.slotSize data cfg.slotCount 0 (clearSlots cfg b) 0
    (by simpa [Nat.mul_comm] using h) (by simp)
    (fun j hj1 hj2 => clearSlots_slotRead cfg b j (by omega))
  unfold connectedBlobs
  rw [List.range_eq_range']
  simpa using hs.1

/-- The slot-write loop, run on any backend whose reserved slots are all
empty, reconstructs exactly the payload on read and accumulates exactly
the payload's length into the occupied-bytes counter. -/
theorem writeLoop_connected (cfg : Config) (b0 : Backend) (data : List Char)
    (occ : Nat) (hempty : ∀ j, j < cfg.slotCount → slotRead b0 j = [])
    (h : data.length ≤ cfg.slotSize * cfg.slotCount) :
    connectedBlobs cfg ((writeLoop cfg.slotSize data cfg.slotCount 0 b0 occ).1)
        = data
      ∧ (writeLoop cfg.slotSize data cfg.slotCount 0 b0 occ).2
        = occ + data.length := by
  have hs := writeLoop_spec cfg.slotSize data cfg.slotCount 0 b0 occ
    (by simpa [Nat.mul_comm] using h) (by simp)
    (fun j hj1 hj2 => hempty j (by omega))
  constructor
  · unfold connectedBlobs
    rw [List.range_eq_range']
    simpa using hs.1
  · simpa using hs.2

/-! ## Lemmas about JS object update and merge -/

theorem any_key_eq_false {α : Type} (d : List (String × α)) (k : String)
    (h : ∀ kv ∈ d, kv.1 ≠ k) :
    (d.any fun kv => decide (kv.1 = k)) = false := by
  rw [List.any_eq_false]
  intro kv hkv
  simp [h kv hkv]

theorem objUpd_append {α : Type} (d : List (String × α)) (k : String) (v : α)
    (h : ∀ kv ∈ d, kv.1 ≠ k) : objUpd d k v = d ++ [(k, v)] := by
  unfold objUpd
  rw [any_key_eq_false d k h]
  simp

theorem objUpd_keys_nodup {α : Type} (d : List (String × α)) (k : String) (v : α)
    (h : (d.map Prod.fst).Nodup) : ((objUpd d k v).map Prod.fst).Nodup := by
  unfold objUpd
  by_cases hc : (d.any fun kv => decide (kv.1 = k)) = true
  · rw [if_pos hc]
    have hkeys : (d.map (fun kv => if kv.1 = k then (k, v) else kv)).map Prod.fst
        = d.map Prod.fst := by
      rw [List.map_map]
      apply List.map_congr_left
      intro kv _
      by_cases hk : kv.1 = k
      · simp [hk]
      · simp [hk]
    rw [hkeys]
    exact h
  · rw [if_neg hc]
    rw [List.map_append]
    rw [List.nodup_append]
    refine ⟨h, by simp, ?_⟩
    intro x hx
    simp only [List.map_cons, List.map_nil, List.mem_singleton]
    intro hk
    subst hk
    rcases List.mem_map.mp hx with ⟨kv, hkv, hk1⟩
    rw [List.any_eq_true] at hc
    exact hc ⟨kv, hkv, by simp [hk1]⟩

theorem jsMerge_keys_nodup (items : Doc) :
    ∀ acc : Doc, (acc.map Prod.fst).Nodup →
      ((jsMerge acc items).map Prod.fst).Nodup := by
  induction items with
  | nil => intro acc h; exact h
  | cons kv t ih =>
    intro acc h
    simp only [jsMerge, List.foldl_cons]
    exact ih (objUpd acc kv.1 kv.2) (objUpd_keys_nodup acc kv.1 kv.2 h)

theorem foldl_objUpd_append (f : String → Option String) :
    ∀ (ks : List String) (acc : Got), (∀ k ∈ ks, ∀ kv ∈ acc, kv.1 ≠ k) →
      ks.Nodup →
      ks.foldl (fun a k => objUpd a k (f k)) acc
        = acc ++ ks.map (fun k => (k, f k)) := by
  intro ks
  induction ks with
  | nil => intro acc _ _; simp
  | cons k t ih =>
    intro acc hd hn
    simp only [List.foldl_cons, List.map_cons]
    rw [objUpd_append acc k (f k) (fun kv hkv => hd k (List.mem_cons_self k t) kv hkv)]
    rw [ih (acc ++ [(k, f k)]) ?_ (List.nodup_cons.mp hn).2]
    · simp
    · intro q hq kv hkv
      rcases List.mem_append.mp hkv with h1 | h2
      · exact hd q (List.mem_cons_of_mem _ hq) kv h1
      · have hkv2 : kv = (k, f k) := List.mem_singleton.mp h2
        subst hkv2
        intro he
        exact (List.nodup_cons.mp hn).1 (by rw [← he] at hq; simpa using hq)

theorem lookup_self (d : Doc) (hd : (d.map Prod.fst).Nodup) :
    ∀ kv ∈ d, d.lookup kv.1 = some kv.2 := by
  induction d with
  | nil => intro kv hkv; cases hkv
  | cons a t ih =>
    rw [List.map_cons] at hd
    have h1 := (List.nodup_cons.mp hd).1
    have h2 := (List.nodup_cons.mp hd).2
    intro kv hkv
    rcases List.mem_cons.mp hkv with rfl | hmem
    · simp [List.lookup]
    · have hne : kv.1 ≠ a.1 := by
        intro he
        exact h1 (by rw [← he]; exact List.mem_map.mpr ⟨kv, hmem, rfl⟩)
      have hbeq : (kv.1 == a.1) = false := beq_eq_false_iff_ne.mpr hne
      simp only [List.lookup, hbeq]
      exact ih h2 kv hmem

/-- The `get` value-building loop, fed all keys of a nodup-keyed document
against that document itself, reproduces the document. -/
theorem buildValues_cache (d : Doc) (hd : (d.map Prod.fst).Nodup) :
    buildValues (.list (d.map Prod.fst)) (fun k => d.lookup k)
      = .ok (d.map fun kv => (kv.1, some kv.2)) := by
  simp only [buildValues]
  rw [foldl_objUpd_append (fun k => d.lookup k) (d.map Prod.fst) []
    (by intro q _ kv hkv; cases hkv) hd]
  rw [List.nil_append, List.map_map]
  refine congrArg Except.ok (List.map_congr_left ?_)
  intro kv hkv
  simp only [Function.comp]
  rw [lookup_self d hd kv hkv]

/-! ## Characterization of `set` -/

/-- Slot reconstruction and occupied-bytes accounting for the backend
shape produced inside `set` (slots cleared, then one metadata write,
then the slot-write loop). -/
theorem wl_tail (cfg : Config) (bPre : Backend) (m0 : MetaValues)
    (data : List Char) (hlen : data.length ≤ cfg.slotSize * cfg.slotCount) :
    connectedBlobs cfg
        ((writeLoop cfg.slotSize data cfg.slotCount 0
          (bset (clearSlots cfg bPre) .metaKey (.meta m0)) 0).1) = data
      ∧ (writeLoop cfg.slotSize data cfg.slotCount 0
          (bset (clearSlots cfg bPre) .metaKey (.meta m0)) 0).2 = data.length := by
  have hempty : ∀ j, j < cfg.slotCount →
      slotRead (bset (clearSlots cfg bPre) .metaKey (.meta m0)) j = [] := by
    intro j hj
    rw [slotRead_bset_meta]
    exact clearSlots_slotRead cfg bPre j hj
  have hres := writeLoop_connected cfg _ data 0 hempty hlen
  exact ⟨hres.1, by rw [hres.2]; omega⟩

/-- `set` never touches a backend key outside the engine's reserved
namespace (the metadata key and the slot keys below `slotCount`),
whether it succeeds or fails. -/
theorem set_frame (e : Engine) (b : Backend) (items : Doc) (now : Nat) (k : BKey)
    (hk1 : k ≠ .metaKey) (hk2 : ∀ i, i < e.config.slotCount → k ≠ .slotKey i) :
    (set e b items now).backend k = b k := by
  have hwl : ∀ (d : List Char) (b0 : Backend) (occ : Nat),
      (writeLoop e.config.slotSize d e.config.slotCount 0 b0 occ).1 k = b0 k :=
    fun d b0 occ => writeLoop_frame e.config.slotSize d e.config.slotCount 0 b0 occ k
      (fun j hj1 hj2 => hk2 j (by omega))
  unfold set
  by_cases hc : e.config.compress
  · simp only [hc, if_true, ite_true, setLastCompress, setMeta, setHash,
      setPreCompressHash, setLastUpdated, clear]
    split
    · exact bset_ne _ _ _ _ hk1
    · dsimp only
      rw [bset_ne _ _ _ _ hk1, bset_ne _ _ _ _ hk1, bset_ne _ _ _ _ hk1, hwl,
        bset_ne _ _ _ _ hk1, clearSlots_frame _ _ _ hk2, bset_ne _ _ _ _ hk1]
  · simp only [hc, Bool.false_eq_true, if_false, ite_false, setLastCompress,
      setMeta, setHash, setPreCompressHash, setLastUpdated, clear]
    split
    · rfl
    · dsimp only
      rw [bset_ne _ _ _ _ hk1, bset_ne _ _ _ _ hk1, bset_ne _ _ _ _ hk1,
        bset_ne _ _ _ _ hk1, hwl, bset_ne _ _ _ _ hk1,
        clearSlots_frame _ _ _ hk2]

/-- The capacity check of `set`: the result is the Capacity error with
overage `size - maxCapacity` exactly when the final payload is strictly
larger than `slotCount * slotSize`, and success otherwise. -/
theorem set_capacity_check (e : Engine) (b : Backend) (items : Doc) (now : Nat) :
    (set e b items now).res
      = if (finalPayload e items).length > getMaxCapacity e.config
        then .error (.tooLarge
          ((finalPayload e items).length - getMaxCapacity e.config))
        else .ok () := by
  unfold set
  by_cases hc : e.config.compress
  · simp only [hc, if_true, ite_true, setLastCompress, setMeta, setHash,
      setPreCompressHash, setLastUpdated, clear, finalPayload, serializedPayload,
      blobSpread]
    split
    · rfl
    · rfl
  · simp only [hc, Bool.false_eq_true, if_false, ite_false, setLastCompress,
      setMeta, setHash, setPreCompressHash, setLastUpdated, clear, finalPayload,
      serializedPayload, blobSpread]
    split
    · rfl
    · rfl

/-- Full characterization of a successful `set`: result, final metadata,
metadata persistence, slot contents, occupied-bytes accounting, local
cache and state trace. -/
theorem set_ok_spec (e : Engine) (b : Backend) (items : Doc) (now : Nat)
    (h : (finalPayload e items).length ≤ getMaxCapacity e.config) :
    (set e b items now).res = .ok ()
  ∧ (set e b items now).engine.config = e.config
  ∧ (set e b items now).engine.codec = e.codec
  ∧ (set e b items now).engine.state = .Idle
  ∧ (set e b items now).engine.localData = jsMerge [] items
  ∧ (set e b items now).engine.occupiedStorage = (finalPayload e items).length
  ∧ (set e b items now).engine.meta.hash
      = some (e.codec.hashFn (finalPayload e items))
  ∧ (set e b items now).engine.meta.hashPreCompress
      = (if e.config.compress
         then some (e.codec.hashFn (serializedPayload items)) else none)
  ∧ (set e b items now).engine.meta.lastUpdated = some now
  ∧ (set e b items now).engine.meta.lastCompressState
      = (if e.config.compress then LastCompressStates.Compressed
         else LastCompressStates.Uncomporessed)
  ∧ (set e b items now).backend .metaKey
      = some (.meta (set e b items now).engine.meta)
  ∧ connectedBlobs e.config (set e b items now).backend = finalPayload e items
  ∧ (set e b items now).trace = [.Uploading, .Idle] := by
  by_cases hc : e.config.compress
  · have hfp : finalPayload e items
        = e.codec.compressFn (stringifyDoc (jsMerge [] items)) := by
      simp [finalPayload, serializedPayload, hc]
    have hlen2 : (e.codec.compressFn (stringifyDoc (jsMerge [] items))).length
        ≤ e.config.slotSize * e.config.slotCount := by
      rw [← hfp, Nat.mul_comm]
      exact h
    have hwl := wl_tail e.config
      (bset b .metaKey (.meta { e.meta with lastCompressState := .Compressed }))
      { e.meta with hash := none, lastCompressState := .Compressed }
      (e.codec.compressFn (stringifyDoc (jsMerge [] items))) hlen2
    have hcap2 : ¬ ((e.codec.compressFn
        (stringifyDoc (jsMerge [] items))).length > getMaxCapacity e.config) := by
      rw [← hfp]
      omega
    unfold set
    simp only [hc, if_true, ite_true, setLastCompress, setMeta, setHash,
      setPreCompressHash, setLastUpdated, clear, blobSpread, finalPayload,
      serializedPayload]
    rw [if_neg hcap2]
    refine ⟨rfl, rfl, rfl, rfl, rfl, ?_, ?_, rfl, rfl, rfl, ?_, ?_, rfl⟩
    · exact hwl.2
    · simp only [connectedBlobs_bset_meta]
      rw [hwl.1]
    · simp only [connectedBlobs_bset_meta]
      rw [hwl.1]
      exact bset_self _ _ _
    · simp only [connectedBlobs_bset_meta]
      exact hwl.1
  · have hfp : finalPayload e items = stringifyDoc (jsMerge [] items) := by
      simp [finalPayload, serializedPayload, hc]
    have hlen2 : (stringifyDoc (jsMerge [] items)).length
        ≤ e.config.slotSize * e.config.slotCount := by
      rw [← hfp, Nat.mul_comm]
      exact h
    have hwl := wl_tail e.config b { e.meta with hash := none }
      (stringifyDoc (jsMerge [] items)) hlen2
    have hcap2 : ¬ ((stringifyDoc (jsMerge [] items)).length
        > getMaxCapacity e.config) := by
      rw [← hfp]
      omega
    unfold set
    simp only [hc, Bool.false_eq_true, if_false, ite_false, setLastCompress,
      setMeta, setHash, setPreCompressHash, setLastUpdated, clear, blobSpread,
      finalPayload, serializedPayload]
    rw [if_neg hcap2]
    refine ⟨rfl, rfl, rfl, rfl, rfl, ?_, ?_, rfl, rfl, rfl, ?_, ?_, rfl⟩
    · exact hwl.2
    · simp only [connectedBlobs_bset_meta]
      rw [hwl.1]
    · simp only [connectedBlobs_bset_meta]
      rw [hwl.1]
      exact bset_self _ _ _
    · simp only [connectedBlobs_bset_meta]
      exact hwl.1

/-- Full characterization of a `set` that fails the capacity check: the
final payload exceeded the capacity by exactly the carried overage; the
slots and the cached `hash`, `hashPreCompress` and `lastUpdated` are
untouched, as are the local cache and the occupied counter; with
compression disabled nothing at all changed, while with compression
enabled the compression step has already persisted
`lastCompressState = Compressed`. -/
theorem set_err_spec (e : Engine) (b : Backend) (items : Doc) (now : Nat)
    (o : Nat) (ho : (set e b items now).res = .error (.tooLarge o)) :
    (finalPayload e items).length > getMaxCapacity e.config
  ∧ o = (finalPayload e items).length - getMaxCapacity e.config
  ∧ (∀ i, slotRead (set e b items now).backend i = slotRead b i)
  ∧ (set e b items now).engine.meta.hash = e.meta.hash
  ∧ (set e b items now).engine.meta.hashPreCompress = e.meta.hashPreCompress
  ∧ (set e b items now).engine.meta.lastUpdated = e.meta.lastUpdated
  ∧ (set e b items now).engine.localData = e.localData
  ∧ (set e b items now).engine.occupiedStorage = e.occupiedStorage
  ∧ (set e b items now).engine.state = .Idle
  ∧ (set e b items now).trace = [.Uploading, .Idle, .Idle]
  ∧ (e.config.compress = false →
      (∀ k, (set e b items now).backend k = b k)
      ∧ (set e b items now).engine.meta = e.meta)
  ∧ (e.config.compress = true →
      (set e b items now).engine.meta.lastCompressState = .Compressed
      ∧ (∀ k, k ≠ .metaKey → (set e b items now).backend k = b k)
      ∧ (set e b items now).backend .metaKey
          = some (.meta (set e b items now).engine.meta)) := by
  by_cases hc : e.config.compress
  · have hfp : finalPayload e items
        = e.codec.compressFn (stringifyDoc (jsMerge [] items)) := by
      simp [finalPayload, serializedPayload, hc]
    rw [hfp]
    unfold set at ho ⊢
    simp only [hc, if_true, ite_true, setLastCompress, setMeta, setHash,
      setPreCompressHash, setLastUpdated, clear, blobSpread] at ho ⊢
    by_cases hcap : (e.codec.compressFn
        (stringifyDoc (jsMerge [] items))).length > getMaxCapacity e.config
    · rw [if_pos hcap] at ho ⊢
      simp only [Except.error.injEq, SetErr.tooLarge.injEq] at ho
      refine ⟨hcap, ho.symm, ?_, rfl, rfl, rfl, rfl, rfl, rfl, rfl, ?_, ?_⟩
      · intro i
        exact slotRead_bset_meta b _ i
      · intro hfalse
        exact absurd hfalse (by simp [hc])
      · intro _
        dsimp only
        exact ⟨rfl, fun k hk => bset_ne _ _ _ _ hk, bset_self _ _ _⟩
    · rw [if_neg hcap] at ho
      cases ho
  · have hfp : finalPayload e items = stringifyDoc (jsMerge [] items) := by
      simp [finalPayload, serializedPayload, hc]
    rw [hfp]
    unfold set at ho ⊢
    simp only [hc, Bool.false_eq_true, if_false, ite_false, setLastCompress,
      setMeta, setHash, setPreCompressHash, setLastUpdated, clear,
      blobSpread] at ho ⊢
    by_cases hcap : (stringifyDoc (jsMerge [] items)).length
        > getMaxCapacity e.config
    · rw [if_pos hcap] at ho ⊢
      simp only [Except.error.injEq, SetErr.tooLarge.injEq] at ho
      refine ⟨hcap, ho.symm, ?_, rfl, rfl, rfl, rfl, rfl, rfl, rfl, ?_, ?_⟩
      · intro i
        rfl
      · intro _
        exact ⟨fun k => rfl, rfl⟩
      · intro htrue
        exact htrue.elim
    · rw [if_neg hcap] at ho
      cases ho

/-! ## Characterization of `get`, `clear` and `create` -/

/-- `get` never writes to the backend at all. -/
theorem get_backend_eq (e : Engine) (b : Backend) (arg : GetArg) :
    (get e b arg).backend = b := rfl

/-- A `get()` with no argument on an engine whose cached metadata matches
the stored record (so `isUpToDate` answers `true`) is served from the
local cache and returns the whole cached document. -/
theorem get_cached (e : Engine) (b : Backend)
    (hmeta : b .metaKey = some (.meta e.meta))
    (hn : (e.localData.map Prod.fst).Nodup) :
    (get e b .noArg).res = .ok (e.localData.map fun kv => (kv.1, some kv.2)) := by
  have hu : isUpToDate { e with state := StorageStates.Downloading } b
      = .ok true := by
    unfold isUpToDate
    rw [hmeta]
    simp
  unfold get
  dsimp only [argKeysToArray]
  rw [hu]
  exact buildValues_cache e.localData hn

/-- A `get` whose argument is an array always rejects: the derived keys
value is `Array.prototype.keys`, which the value-building loop cannot
iterate, and any parse failure on the live path also rejects. -/
theorem get_arr_rejects (e : Engine) (b : Backend) (l : List String) :
    ∃ er, (get e b (.arrArg l)).res = .error er := by
  unfold get
  dsimp only [argKeysToArray]
  cases hu : isUpToDate { e with state := StorageStates.Downloading } b with
  | error er => exact ⟨er, rfl⟩
  | ok tv =>
    cases tv with
    | true => exact ⟨.typeError, rfl⟩
    | false =>
      cases hp : parseDoc (getAsBlob { e with state := StorageStates.Downloading } b) with
      | none => exact ⟨.parseError, rfl⟩
      | some json => exact ⟨.typeError, rfl⟩

theorem connectedBlobs_emptyMeta (cfg : Config) (v : BVal) :
    connectedBlobs cfg (bset emptyBackend .metaKey v) = [] := by
  unfold connectedBlobs
  rw [List.flatten_eq_nil_iff]
  intro x hx
  rcases List.mem_map.mp hx with ⟨i, _, rfl⟩
  rw [slotRead_bset_meta]
  rfl

/-- `create` on an empty backend: default metadata is written to the
backend, the cache starts empty and no capacity is occupied. -/
theorem create_empty_eq (cfg : Config) (codec : Codec) :
    create cfg codec emptyBackend
      = ({ config := cfg, codec := codec, meta := initMeta, localData := [],
           occupiedStorage := 0, state := .Idle },
         bset emptyBackend .metaKey (.meta initMeta)) := by
  unfold create setMeta
  dsimp only [emptyBackend]
  rw [connectedBlobs_emptyMeta]
  rfl

/-- `set` restores the `state` field to `Idle` on every path, success or
Capacity failure. -/
theorem set_state_idle (e : Engine) (b : Backend) (items : Doc) (now : Nat) :
    (set e b items now).engine.state = .Idle := by
  unfold set
  by_cases hc : e.config.compress
  · simp only [hc, if_true, ite_true, setLastCompress, setMeta, setHash,
      setPreCompressHash, setLastUpdated, clear]
    split
    · rfl
    · rfl
  · simp only [hc, Bool.false_eq_true, if_false, ite_false, setLastCompress,
      setMeta, setHash, setPreCompressHash, setLastUpdated, clear]
    split
    · rfl
    · rfl

/-- The successive `state` assignments of `set` always begin with
`Uploading` and always end with `Idle`. -/
theorem set_trace_spec (e : Engine) (b : Backend) (items : Doc) (now : Nat) :
    (set e b items now).trace.head? = some .Uploading
    ∧ (set e b items now).trace.getLast? = some .Idle := by
  unfold set
  by_cases hc : e.config.compress
  · simp only [hc, if_true, ite_true, setLastCompress, setMeta, setHash,
      setPreCompressHash, setLastUpdated, clear]
    split
    · exact ⟨rfl, rfl⟩
    · exact ⟨rfl, rfl⟩
  · simp only [hc, Bool.false_eq_true, if_false, ite_false, setLastCompress,
      setMeta, setHash, setPreCompressHash, setLastUpdated, clear]
    split
    · exact ⟨rfl, rfl⟩
    · exact ⟨rfl, rfl⟩

/-! ## Claims -/

/-- C1 (code bug): the spec requires `set` to merge `items` over the
previously stored document (old keys kept, new keys winning), and the
source's own comment says "Need to get all previous data before and merge
items" — but the code spreads the `connectedBlobs()` **Blob object**
(`{ ...oldData, ...items }`) instead of parsing it, which contributes no
entries, so the previous document is dropped.  Concretely: after storing
`{a:"1"}` (reconstructible from the slots), a successful `set({b:"2"})`
leaves the stored document equal to `{"b":"2"}`, not to the spec's merged
document `{"a":"1","b":"2"}`. -/
theorem C1_merge_drops_old_document :
    c1SetA.res = .ok ()
  ∧ parseDoc (connectedBlobs cfgShare c1SetA.backend) = some [("a", "1")]
  ∧ c1SetB.res = .ok ()
  ∧ connectedBlobs cfgShare c1SetB.backend = stringifyDoc [("b", "2")]
  ∧ stringifyDoc (specMergedDocument [("a", "1")] [("b", "2")])
      = ("\x7b\"a\":\"1\",\"b\":\"2\"\x7d").data
  ∧ connectedBlobs cfgShare c1SetB.backend
      ≠ stringifyDoc (specMergedDocument [("a", "1")] [("b", "2")]) := by
  decide

/-- C2 (counterexample): a `set` rejected with the Capacity error does
*not* always leave the metadata record untouched.  With compression
enabled, the compression step persists `lastCompressState = Compressed`
before the capacity check, so after the failing call both the cached and
the stored metadata record changed from `Uncomporessed` to `Compressed`
(the repository's own test "cloud is still Compressed from before"
asserts exactly this behaviour). -/
theorem C2_counterexample_lastCompressState_changes :
    c2World.1.meta.lastCompressState = .Uncomporessed
  ∧ c2World.2 .metaKey
      = some (.meta { hash := none, hashPreCompress := none,
                      lastUpdated := none, lastCompressState := .Uncomporessed })
  ∧ c2Fail.res = .error (.tooLarge 15)
  ∧ c2Fail.engine.meta.lastCompressState = .Compressed
  ∧ c2Fail.backend .metaKey
      = some (.meta { hash := none, hashPreCompress := none,
                      lastUpdated := none, lastCompressState := .Compressed }) := by
  decide

/-- C2 (amended): when `set` fails with the Capacity error
(`TooLargeDataError`), the backend slots and the `hash`,
`hashPreCompress` and `lastUpdated` metadata fields are exactly as
before, and the local cache and occupied counter are untouched; with
compression disabled, the backend and the whole metadata record are
entirely untouched, while with compression enabled the successful
compression step has already persisted the instance's metadata with
`lastCompressState = Compressed` before the capacity check rejected. -/
theorem C2_capacity_failure_effects (e : Engine) (b : Backend) (items : Doc)
    (now : Nat) (o : Nat)
    (ho : (set e b items now).res = .error (.tooLarge o)) :
    (∀ i, slotRead (set e b items now).backend i = slotRead b i)
  ∧ (set e b items now).engine.meta.hash = e.meta.hash
  ∧ (set e b items now).engine.meta.hashPreCompress = e.meta.hashPreCompress
  ∧ (set e b items now).engine.meta.lastUpdated = e.meta.lastUpdated
  ∧ (set e b items now).engine.localData = e.localData
  ∧ (set e b items now).engine.occupiedStorage = e.occupiedStorage
  ∧ (e.config.compress = false →
      (∀ k, (set e b items now).backend k = b k)
      ∧ (set e b items now).engine.meta = e.meta)
  ∧ (e.config.compress = true →
      (set e b items now).engine.meta.lastCompressState = .Compressed
      ∧ (∀ k, k ≠ .metaKey → (set e b items now).backend k = b k)
      ∧ (set e b items now).backend .metaKey
          = some (.meta (set e b items now).engine.meta)) := by
  have hs := set_err_spec e b items now o ho
  exact ⟨hs.2.2.1, hs.2.2.2.1, hs.2.2.2.2.1, hs.2.2.2.2.2.1, hs.2.2.2.2.2.2.1,
    hs.2.2.2.2.2.2.2.1, hs.2.2.2.2.2.2.2.2.2.2.1, hs.2.2.2.2.2.2.2.2.2.2.2⟩

/-- C2 (witness): the amended theorem applied to the concrete failing
scenario of `C2Cfg`. -/
theorem C2_capacity_failure_effects_witness :
    (c2Fail.res = .error (.tooLarge 15))
  ∧ c2Fail.engine.meta.hash = c2World.1.meta.hash :=
  ⟨by decide,
   (C2_capacity_failure_effects c2World.1 c2World.2 [("key", "ABCDEF")] 1 15
     (by decide)).2.1⟩

/-- C3 (confirmed): the slot-write loop (`writeLoop`, which slices
`[index*slotSize, min((index+1)*slotSize, length))` into slot `index` and
breaks at the first chunk whose end equals the payload length), run after
the slots are cleared, round-trips: reading slots `0 .. slotCount-1` in
index order with absent slots read as empty and concatenating
(`connectedBlobs`) yields exactly the original payload, for every payload
of size at most `slotSize * slotCount`. -/
theorem C3_split_roundTrip (cfg : Config) (b : Backend) (payload : List Char)
    (h : payload.length ≤ cfg.slotSize * cfg.slotCount) :
    connectedBlobs cfg
      ((writeLoop cfg.slotSize payload cfg.slotCount 0 (clearSlots cfg b) 0).1)
      = payload :=
  slots_roundTrip cfg b payload h

/-- C3 (witness): a five-byte payload in two three-byte slots. -/
theorem C3_split_roundTrip_witness :
    ("abcde").data.length ≤ c3Cfg.slotSize * c3Cfg.slotCount
  ∧ connectedBlobs c3Cfg
      ((writeLoop c3Cfg.slotSize ("abcde").data c3Cfg.slotCount 0
        (clearSlots c3Cfg emptyBackend) 0).1) = ("abcde").data :=
  ⟨by decide, C3_split_roundTrip c3Cfg emptyBackend ("abcde").data (by decide)⟩

/-- C4 (code bug): the claim ties the Capacity error to the size of "the
serialized merged mapping".  Because the merge never sees the previous
document (see C1), the code measures the serialization of `items` alone:
with capacity 16 and a stored 16-byte document `{key:"ABCDEF"}`, the
spec's merged document for `set({a:"x"})` serializes to 24 bytes (> 16),
yet the call succeeds.  The remaining arithmetic of the claim is what the
code does on its own payload: a payload of exactly `slotSize * slotCount`
bytes succeeds and one byte over fails carrying overage exactly 1. -/
theorem C4_capacity_checks_unmerged_payload :
    getMaxCapacity cfg44 = 16
  ∧ c4SetA.res = .ok ()
  ∧ (stringifyDoc [("key", "ABCDEF")]).length = 16
  ∧ parseDoc (connectedBlobs cfg44 c4SetA.backend) = some [("key", "ABCDEF")]
  ∧ (stringifyDoc (specMergedDocument [("key", "ABCDEF")] [("a", "x")])).length = 24
  ∧ c4SetB.res = .ok ()
  ∧ c4SetC.res = .error (.tooLarge 1) := by
  decide

/-- C6 (confirmed): `isUpToDate` answers `true` exactly when the
instance's cached `lastUpdated` strictly equals the live stored
metadata's `lastUpdated` (including both being `null`); in the
shared-backend scenario, both instances start synchronized, and after A
writes, A is up to date while B is not (and stays stale until it itself
re-syncs the backend metadata). -/
theorem C6_staleness_detection :
    (∀ (e : Engine) (b : Backend) (m : MetaValues),
        b .metaKey = some (.meta m) →
        (isUpToDate e b = .ok true ↔ m.lastUpdated = e.meta.lastUpdated))
  ∧ isUpToDate c6A.1 c6A.2 = .ok true
  ∧ isUpToDate c6B.1 c6B.2 = .ok true
  ∧ c6Set.res = .ok ()
  ∧ isUpToDate c6Set.engine c6Set.backend = .ok true
  ∧ isUpToDate c6B.1 c6Set.backend = .ok false := by
  refine ⟨?_, by decide, by decide, by decide, by decide, by decide⟩
  intro e b m hm
  unfold isUpToDate
  rw [hm]
  simp

/-- C6 (witness): the general equivalence applied to instance A's
concrete post-write state. -/
theorem C6_staleness_detection_witness :
    c6Set.backend .metaKey = some (.meta c6Set.engine.meta)
  ∧ (isUpToDate c6Set.engine c6Set.backend = .ok true
      ↔ c6Set.engine.meta.lastUpdated = c6Set.engine.meta.lastUpdated) :=
  ⟨by decide,
   (C6_staleness_detection.1 c6Set.engine c6Set.backend c6Set.engine.meta
     (by decide))⟩

/-- C8 (confirmed): `set` assigns `Uploading` first and `get` assigns
`Downloading` first (the head of the recorded trace of `state`
assignments), and on every terminating path — success or error — the
final `state` field is `Idle` (equivalently, the last recorded
assignment is `Idle`). -/
theorem C8_state_machine (e : Engine) (b : Backend) (items : Doc) (now : Nat)
    (arg : GetArg) :
    (set e b items now).trace.head? = some .Uploading
  ∧ (set e b items now).engine.state = .Idle
  ∧ (set e b items now).trace.getLast? = some .Idle
  ∧ (get e b arg).trace.head? = some .Downloading
  ∧ (get e b arg).engine.state = .Idle
  ∧ (get e b arg).trace.getLast? = some .Idle :=
  ⟨(set_trace_spec e b items now).1, set_state_idle e b items now,
   (set_trace_spec e b items now).2, rfl, rfl, rfl⟩

/-- C9 (confirmed): every backend key other than the metadata key and the
slot keys `0 .. slotCount-1` is left untouched by `set` (success or
failure), `get` and `clear`; and `clear` removes exactly its own reserved
slot keys (it never wipes the backend wholesale). -/
theorem C9_shared_backend_isolation (e : Engine) (b : Backend) (items : Doc)
    (now : Nat) (arg : GetArg) (k : BKey) (hk1 : k ≠ .metaKey)
    (hk2 : ∀ i, i < e.config.slotCount → k ≠ .slotKey i) :
    (set e b items now).backend k = b k
  ∧ (get e b arg).backend k = b k
  ∧ (clear e b).2 k = b k
  ∧ (∀ i, i < e.config.slotCount → (clear e b).2 (.slotKey i) = none) := by
  refine ⟨set_frame e b items now k hk1 hk2, rfl,
    clearSlots_frame e.config b k hk2, ?_⟩
  intro i hi
  show clearSlots e.config b (.slotKey i) = none
  have hc : (List.range e.config.slotCount).any
      (fun j => decide (BKey.slotKey i = BKey.slotKey j)) = true := by
    rw [List.any_eq_true]
    exact ⟨i, List.mem_range.mpr hi, by simp⟩
  rw [clearSlots_apply, if_pos hc]

/-- C9 (witness): a caller-owned key `"dummy1"` survives an engine write
on the shared backend. -/
theorem C9_shared_backend_isolation_witness :
    (BKey.userKey "dummy1" ≠ BKey.metaKey)
  ∧ (set c6A.1 c6A.2 [("k", "v")] 3).backend (BKey.userKey "dummy1")
      = c6A.2 (BKey.userKey "dummy1") :=
  ⟨by decide,
   (C9_shared_backend_isolation c6A.1 c6A.2 [("k", "v")] 3 .noArg
     (BKey.userKey "dummy1") (by decide)
     (fun i hi h => BKey.noConfusion h)).1⟩

/-- C10 (confirmed): `argKeysToArray` sends every non-null non-string
object — arrays included — through the `typeof keys === "object"` branch
and returns the argument's `keys` property: for an array that is the
(non-iterable) `Array.prototype.keys` method, for a plain object without
a `keys` array it is `undefined`, and only an object carrying a `keys`
array of strings yields those strings.  Consequently `get` with an array
argument never returns the keys' values: it rejects on every path. -/
theorem C10_array_argument_rejects (e : Engine) (b : Backend) (l : List String) :
    argKeysToArray e (.arrArg l) = .jsFun
  ∧ (∀ ks, argKeysToArray e (.objArg (some ks)) = .list ks)
  ∧ argKeysToArray e (.objArg none) = .jsUndefined
  ∧ (∀ ks, KeysVal.jsFun ≠ KeysVal.list ks)
  ∧ (∃ er, (get e b (.arrArg l)).res = .error er) :=
  ⟨rfl, fun _ => rfl, rfl, fun _ h => KeysVal.noConfusion h,
   get_arr_rejects e b l⟩

/-- C5 (confirmed): with compression enabled and a codec satisfying the
spec contract `decompress (compress x) = x`, a successful `set(items)` on
a freshly created engine over an empty backend leaves
`getLastCompressState() = Compressed`, a subsequent `get()` returns the
original uncompressed document, and the blob reconstruction path
(`getAsBlob`: concatenate slots, then decompress) recovers exactly the
uncompressed serialized document. -/
theorem C5_compression_transparency
    (hashFn : List Char → String) (cf df : List Char → List Char)
    (hinv : ∀ s, df (cf s) = s)
    (cfg : Config) (hcfg : cfg.compress = true) (items : Doc) (now : Nat)
    (e0 : Engine) (b0 : Backend)
    (he : create cfg ⟨hashFn, cf, df⟩ emptyBackend = (e0, b0))
    (hfit : (cf (stringifyDoc (jsMerge [] items))).length ≤ getMaxCapacity cfg) :
    (set e0 b0 items now).res = .ok ()
  ∧ getLastCompressState (set e0 b0 items now).engine = .Compressed
  ∧ (get (set e0 b0 items now).engine (set e0 b0 items now).backend .noArg).res
      = .ok ((jsMerge [] items).map fun kv => (kv.1, some kv.2))
  ∧ getAsBlob (set e0 b0 items now).engine (set e0 b0 items now).backend
      = stringifyDoc (jsMerge [] items) := by
  have he0 : e0 =
      { config := cfg
        codec := ⟨hashFn, cf, df⟩
        meta := initMeta
        localData := []
        occupiedStorage := 0
        state := .Idle } := by
    have h1 : e0 = (create cfg ⟨hashFn, cf, df⟩ emptyBackend).1 := by rw [he]
    rw [h1, create_empty_eq]
  have hc1 : e0.config = cfg := by rw [he0]
  have hc2 : e0.codec = ⟨hashFn, cf, df⟩ := by rw [he0]
  have hfp : finalPayload e0 items = cf (stringifyDoc (jsMerge [] items)) := by
    simp [finalPayload, serializedPayload, hc1, hc2, hcfg]
  have hcap : (finalPayload e0 items).length ≤ getMaxCapacity e0.config := by
    rw [hfp, hc1]
    exact hfit
  obtain ⟨hres, hcfgE, hcodecE, hstate, hlocal, hocc, hhash, hpre, hlu, hlcs,
    hbmeta, hconn, htrace⟩ := set_ok_spec e0 b0 items now hcap
  have hlcs2 : (set e0 b0 items now).engine.meta.lastCompressState
      = .Compressed := by
    rw [hlcs, hc1]
    simp [hcfg]
  refine ⟨hres, hlcs2, ?_, ?_⟩
  · have hn : (((set e0 b0 items now).engine.localData).map Prod.fst).Nodup := by
      rw [hlocal]
      exact jsMerge_keys_nodup items [] (by simp)
    have hg := get_cached (set e0 b0 items now).engine
      (set e0 b0 items now).backend hbmeta hn
    rw [hg, hlocal]
  · unfold getAsBlob
    rw [hcfgE, hconn, hlcs2, hcodecE, hc2, hfp]
    simp [hinv]

/-- C5 (witness): the identity codec trivially satisfies the inverse
contract; a one-key document round-trips on a fresh compressing engine. -/
theorem C5_compression_transparency_witness :
    c5Cfg.compress = true
  ∧ (id (stringifyDoc (jsMerge [] [("k", "v")]))).length ≤ getMaxCapacity c5Cfg
  ∧ (set (create c5Cfg ⟨fun _ => "h", id, id⟩ emptyBackend).1
        (create c5Cfg ⟨fun _ => "h", id, id⟩ emptyBackend).2 [("k", "v")] 3).res
      = .ok () :=
  ⟨rfl, by decide,
   (C5_compression_transparency (fun _ => "h") id id (fun _ => rfl) c5Cfg rfl
     [("k", "v")] 3
     (create c5Cfg ⟨fun _ => "h", id, id⟩ emptyBackend).1
     (create c5Cfg ⟨fun _ => "h", id, id⟩ emptyBackend).2 rfl (by decide)).1⟩

set_option maxHeartbeats 2000000 in
/-- C7 (confirmed): after every successful `set`, the persisted hash is
the digest of the exact bytes now stored in the slots (the engine
recomputes it from `connectedBlobs` after writing, post-compression when
enabled); and in the concrete `slotSize=4, slotCount=4` scenario, storing
`{key:"ABCDEF"}` over a store previously holding `{key:"ABC"}` succeeds,
`getCurrentUsed()` resolves to 16, and `getHash()` is the digest of the
16-character string `'\x7b"key":"ABCDEF"\x7d'`. -/
theorem C7_hash_of_stored_bytes :
    (∀ (e : Engine) (b : Backend) (items : Doc) (now : Nat),
        (set e b items now).res = .ok () →
        (set e b items now).engine.meta.hash
          = some (e.codec.hashFn
              (connectedBlobs e.config (set e b items now).backend)))
  ∧ (∀ hashFn : List Char → String,
      (set (set (create cfg44 ⟨hashFn, id, id⟩ emptyBackend).1
            (create cfg44 ⟨hashFn, id, id⟩ emptyBackend).2 [("key", "ABC")] 1).engine
          (set (create cfg44 ⟨hashFn, id, id⟩ emptyBackend).1
            (create cfg44 ⟨hashFn, id, id⟩ emptyBackend).2 [("key", "ABC")] 1).backend
          [("key", "ABCDEF")] 2).res = .ok ()
    ∧ getCurrentUsed (set (set (create cfg44 ⟨hashFn, id, id⟩ emptyBackend).1
            (create cfg44 ⟨hashFn, id, id⟩ emptyBackend).2 [("key", "ABC")] 1).engine
          (set (create cfg44 ⟨hashFn, id, id⟩ emptyBackend).1
            (create cfg44 ⟨hashFn, id, id⟩ emptyBackend).2 [("key", "ABC")] 1).backend
          [("key", "ABCDEF")] 2).engine emptyBackend false = 16
    ∧ getHash (set (set (create cfg44 ⟨hashFn, id, id⟩ emptyBackend).1
            (create cfg44 ⟨hashFn, id, id⟩ emptyBackend).2 [("key", "ABC")] 1).engine
          (set (create cfg44 ⟨hashFn, id, id⟩ emptyBackend).1
            (create cfg44 ⟨hashFn, id, id⟩ emptyBackend).2 [("key", "ABC")] 1).backend
          [("key", "ABCDEF")] 2).engine
        = some (hashFn (("\x7b\"key\":\"ABCDEF\"\x7d").data))) := by
  constructor
  · intro e b items now hok
    have hcc := set_capacity_check e b items now
    rw [hok] at hcc
    by_cases hcap : (finalPayload e items).length > getMaxCapacity e.config
    · rw [if_pos hcap] at hcc
      cases hcc
    · have hle : (finalPayload e items).length ≤ getMaxCapacity e.config := by
        omega
      obtain ⟨hres, hcfgE, hcodecE, hstate, hlocal, hocc, hhash, hpre, hlu,
        hlcs, hbmeta, hconn, htrace⟩ := set_ok_spec e b items now hle
      rw [hhash, hconn]
  · intro hashFn
    exact ⟨rfl, rfl, rfl⟩

/-- C7 (witness): the general half applied to a concrete successful
write. -/
theorem C7_hash_of_stored_bytes_witness :
    (set c6A.1 c6A.2 [("k", "v")] 3).res = .ok ()
  ∧ (set c6A.1 c6A.2 [("k", "v")] 3).engine.meta.hash
      = some (c6A.1.codec.hashFn
          (connectedBlobs c6A.1.config (set c6A.1 c6A.2 [("k", "v")] 3).backend)) :=
  ⟨by decide,
   C7_hash_of_stored_bytes.1 c6A.1 c6A.2 [("k", "v")] 3 (by decide)⟩

end BlobStorage




